import Mathlib

/-
Shallow embedding of the chpr-worker AMQP consumer library
(lib/createWorkers.js, lib/schema.js and the worker type declarations).

The embedding follows the final variant of lib/createWorkers.js: the message
pipeline `_getMessageConsumer` / `_parseMessage` / `_validateMessage` /
`_handleMessage` / `_promisifyWithTimeout`, the shutdown function `_close`,
and the Joi options schema used by `applyOptions` in the schema module.
JavaScript values flowing through the pipeline are modelled by `JsValue`;
the external JSON.parse collaborator is a parameter `jsonParse` that either
yields a value or throws; validators and handlers are modelled by their
behaviour on the one delivery under consideration.
-/

namespace ChprWorker

/-- A JavaScript runtime value as observed by the pipeline: null, booleans,
numbers, strings, opaque objects (identified by a tag, since the pipeline
never looks inside them) and Error objects (the class that lodash isError
recognises). -/
inductive JsValue where
  | vNull
  | vBool (b : Bool)
  | vNum (n : Int)
  | vStr (s : String)
  | vObj (tag : Nat)
  | vErr (msg : String)
  deriving DecidableEq, Repr

/-- JavaScript truthiness: null, false, 0 and the empty string are falsy;
every object (including Error objects) is truthy. Mirrors the `!content`
and `validatedContent || content` tests in the consumer. -/
def truthy : JsValue → Bool
  | .vNull => false
  | .vBool b => b
  | .vNum n => n != 0
  | .vStr s => s != ""
  | .vObj _ => true
  | .vErr _ => true

/-- lodash `_.isError`: recognises Error objects and nothing else. -/
def isError : JsValue → Bool
  | .vErr _ => true
  | _ => false

/-- Outcome of calling a JavaScript function: it either returns a value or
throws one. Used to model the behaviour of a configured validator on the
content of the current delivery. -/
inductive ExecResult where
  | ret (v : JsValue)
  | thrown (v : JsValue)
  deriving DecidableEq, Repr

/-- The part of an AMQP delivery the pipeline inspects: the raw payload
(none when `message.content` is absent, in which case `toString` yields a
non-JSON value and JSON.parse throws) and the broker redelivered flag from
`message.fields`. -/
structure Message where
  content : Option String
  redelivered : Bool
  deriving DecidableEq, Repr

/-- A call on the channel deciding the fate of the delivery. -/
inductive Decision where
  | ack
  | nack
  deriving DecidableEq, Repr

/-- Observable trace of one run of the consumer closure: the channel
ack and nack calls it performed (in order), whether the validator and the
handler were invoked, and with which argument the handler was invoked. -/
structure ConsumeTrace where
  channelCalls : List Decision
  validatorCalled : Bool
  handlerCalled : Bool
  handlerArg : Option JsValue
  deriving DecidableEq, Repr

/-- `_parseMessage`: stringifies the payload and runs JSON.parse inside a
try/catch; a parse failure is logged and turned into `null`. A missing
payload makes `contentString` undefined, so JSON.parse throws and the
result is `null` as well. -/
def parseMessage (jsonParse : String → Except JsValue JsValue) (m : Message) : JsValue :=
  match m.content with
  | some s =>
    match jsonParse s with
    | .ok v => v
    | .error _ => .vNull
  | none => .vNull

/-- The parsed content of a delivery (`const content = _parseMessage(message)`). -/
def contentOf (jsonParse : String → Except JsValue JsValue) (m : Message) : JsValue :=
  parseMessage jsonParse m

/-- `_validateMessage`: calls the validator inside a try/catch; a normal
return passes the returned value through, a thrown value is logged and
returned to the caller (which then applies the lodash isError test). -/
def validateMessage (validate : JsValue → ExecResult) (content : JsValue) : JsValue :=
  match validate content with
  | .ret v => v
  | .thrown e => e

/-- The value handed to the handler: `validatedContent || content`. -/
def handlerArgOf (validate : JsValue → ExecResult) (content : JsValue) : JsValue :=
  if truthy (validateMessage validate content) then validateMessage validate content
  else content

/-- State of a JavaScript promise: settling is permanent, so resolve and
reject only act on a pending promise. -/
inductive PromiseState where
  | pending
  | fulfilled
  | rejectedWith (err : String)
  deriving DecidableEq, Repr

/-- `resolve` callback of the promise executor: a no-op on a settled promise. -/
def resolveP : PromiseState → PromiseState
  | .pending => .fulfilled
  | s => s

/-- `reject` callback of the promise executor: a no-op on a settled promise. -/
def rejectP (e : String) : PromiseState → PromiseState
  | .pending => .rejectedWith e
  | s => s

instance {ε α : Type} [DecidableEq ε] [DecidableEq α] : DecidableEq (Except ε α) := fun a b =>
  match a, b with
  | .ok x, .ok y =>
    if h : x = y then .isTrue (by rw [h]) else .isFalse (by intro hc; cases hc; exact h rfl)
  | .error x, .error y =>
    if h : x = y then .isTrue (by rw [h]) else .isFalse (by intro hc; cases hc; exact h rfl)
  | .ok _, .error _ => .isFalse (by intro hc; cases hc)
  | .error _, .ok _ => .isFalse (by intro hc; cases hc)

/-- Behaviour of one handler invocation: it settles at time `t`
(milliseconds after invocation) with success or an error, or it never
settles. -/
inductive HandlerExec where
  | settles (t : Nat) (result : Except String Unit)
  | hangs
  deriving DecidableEq, Repr

/-- The settlement callback attached by `co(yieldable).then(resolve).catch(reject)`. -/
def settleEvent (result : Except String Unit) (s : PromiseState) : PromiseState :=
  match result with
  | .ok _ => resolveP s
  | .error e => rejectP e s

/-- The error the timeout timer rejects with: `Yieldable timeout in <name>`. -/
def timeoutError (name : String) : String :=
  "Yieldable timeout in " ++ name

/-- `_promisifyWithTimeout`: races the handler settlement against a timer
that rejects with the timeout error after `timeout` milliseconds. Both
callbacks always run (the timer is never cleared); they are applied to the
promise in time order, and the settle-once promise semantics makes the
later one a no-op. A handler settling within the timeout wins; otherwise
the timer rejection wins. -/
def promisifyWithTimeout (h : HandlerExec) (name : String) (timeout : Nat) : PromiseState :=
  match h with
  | .hangs => rejectP (timeoutError name) .pending
  | .settles t result =>
    if t ≤ timeout then rejectP (timeoutError name) (settleEvent result .pending)
    else settleEvent result (rejectP (timeoutError name) .pending)

/-- `_handleMessage`: yields the guarded handler promise inside a try/catch
and returns true when the message should be acked. On success it returns
true; in the catch branch it returns false (nack, so the broker redelivers)
when `fields.redelivered` is false, and true (ack, discard) when it is
true. -/
def handleMessage (h : HandlerExec) (name : String) (timeout : Nat)
    (redelivered : Bool) : Bool :=
  match promisifyWithTimeout h name timeout with
  | .fulfilled => true
  | _ => if !redelivered then false else true

/-- `_getMessageConsumer`: the consumer closure for one delivery, written
in the exception monad so that an uncaught throw inside the pipeline would
surface as an `Except.error`. Mirrors the source line by line: parse, ack
on falsy content, validate, ack when the validation result is an Error,
handle with `validatedContent || content`, then nack on handler failure
and ack on handler success. -/
def consumeMessageE (jsonParse : String → Except JsValue JsValue)
    (validate : JsValue → ExecResult) (handle : JsValue → HandlerExec)
    (name : String) (taskTimeout : Nat) (m : Message) :
    Except JsValue ConsumeTrace :=
  let content := parseMessage jsonParse m
  if truthy content = false then .ok ⟨[.ack], false, false, none⟩
  else if isError (validateMessage validate content) then .ok ⟨[.ack], true, false, none⟩
  else
    let arg := handlerArgOf validate content
    if handleMessage (handle arg) name taskTimeout m.redelivered then
      .ok ⟨[.ack], true, true, some arg⟩
    else .ok ⟨[.nack], true, true, some arg⟩

/-- The trace of one consumer run (the consumer never throws, so the
error fallback is unreachable). -/
def consumeResult (jsonParse : String → Except JsValue JsValue)
    (validate : JsValue → ExecResult) (handle : JsValue → HandlerExec)
    (name : String) (taskTimeout : Nat) (m : Message) : ConsumeTrace :=
  match consumeMessageE jsonParse validate handle name taskTimeout m with
  | .ok tr => tr
  | .error _ => ⟨[], false, false, none⟩

/-- A sample JSON.parse collaborator covering the concrete payloads used
in the test suite and in the witnesses below; every other string throws a
SyntaxError like JSON.parse does on malformed input. -/
def jsonParseSample (s : String) : Except JsValue JsValue :=
  if s = "null" then .ok .vNull
  else if s = "false" then .ok (.vBool false)
  else if s = "0" then .ok (.vNum 0)
  else if s = "1" then .ok (.vNum 1)
  else if s = "{}" then .ok (.vObj 0)
  else .error (.vErr "SyntaxError: Unexpected token")

/-- Which of channel and connection are currently open when `_close` runs. -/
structure CloseState where
  channelOpen : Bool
  connectionOpen : Bool
  deriving DecidableEq, Repr

/-- The externally visible operations `_close` performs, in order. -/
inductive CloseAction where
  | closeChannel
  | closeConnection (forceExit : Bool)
  | scheduleExit (delay : Nat)
  deriving DecidableEq, Repr

/-- `_close(forceExit = true)`: after logging, closes the channel when one
is open, then closes the connection when one is open (passing forceExit
through), and finally, only when forceExit is true, schedules process exit
via `setTimeout(process.exit, processExitTimeout)`. -/
def closeWorker (s : CloseState) (processExitTimeout : Nat)
    (forceExit : Bool := true) : List CloseAction :=
  (if s.channelOpen then [.closeChannel] else []) ++
    (if s.connectionOpen then [.closeConnection forceExit] else []) ++
      (if forceExit then [.scheduleExit processExitTimeout] else [])

/-- The keys the Joi options schema of the worker declares
(`heartbeat`, `taskTimeout`, `processExitTimeout`, `channelPrefetch`). -/
def knownOptionKeys : List String :=
  ["heartbeat", "taskTimeout", "processExitTimeout", "channelPrefetch"]

/-- The validated options produced by `applyOptions`. -/
structure WorkerOptions where
  heartbeat : Int
  taskTimeout : Int
  processExitTimeout : Int
  channelPrefetch : Int
  deriving DecidableEq, Repr

/-- Property lookup on a raw JavaScript options object, modelled as an
association list of its own enumerable keys. -/
def lookupKey (obj : List (String × JsValue)) (k : String) : Option JsValue :=
  (obj.find? (fun p => p.1 = k)).map (fun p => p.2)

/-- One `Joi.number().positive().default(d)` key: absent keys take the
default, present keys must be positive numbers. -/
def positiveNumber (k : String) (v : Option JsValue) (dflt : Int) : Except String Int :=
  match v with
  | none => .ok dflt
  | some (.vNum n) => if 0 < n then .ok n else .error (k ++ " must be a positive number")
  | some _ => .error (k ++ " must be a number")

/-- `applyOptions` = `Joi.attempt(obj, optionsSchema)` for the options
schema of the schema module: the four declared keys are positive numbers
defaulting to 10, 30000, 3000 and 100, and Joi objects reject every
unknown key with a validation error (the schema never calls `.unknown()`
and no `allowUnknown` option is passed). -/
def applyOptions (obj : List (String × JsValue)) : Except String WorkerOptions :=
  match obj.find? (fun p => !(knownOptionKeys.contains p.1)) with
  | some p => .error (p.1 ++ " is not allowed")
  | none => do
    let h ← positiveNumber "heartbeat" (lookupKey obj "heartbeat") 10
    let t ← positiveNumber "taskTimeout" (lookupKey obj "taskTimeout") 30000
    let pe ← positiveNumber "processExitTimeout" (lookupKey obj "processExitTimeout") 3000
    let c ← positiveNumber "channelPrefetch" (lookupKey obj "channelPrefetch") 100
    return ⟨h, t, pe, c⟩

/-- Modelled from the spec: the Event Bus / `wait()` implementation is not
under src/ — only the type declaration (index.d.ts `Worker.Process.wait`)
and the test suite refer to it. Per section 4.7 of the spec, a waiter is
registered at call time with an event name and a timeout defaulting to
1000 ms. -/
structure Waiter where
  name : String
  registeredAt : Nat
  timeoutMs : Nat := 1000
  deriving DecidableEq, Repr

/-- Modelled from the spec: the timeout rejection message of `wait`,
"event <name> didn't occur after <timeoutMs>ms" (the apostrophe is
character 39). -/
def waitTimeoutMessage (name : String) (tmo : Nat) : String :=
  "event " ++ name ++ " didn" ++ String.singleton (Char.ofNat 39) ++
    "t occur after " ++ toString tmo ++ "ms"

/-- Modelled from the spec: delivery of one broadcast event to a waiter.
The waiter resolves only on events matching its name that were emitted
strictly after its registration; settle-once promise semantics makes any
later delivery a no-op. -/
def waitStep (w : Waiter) (s : PromiseState) (ev : String × Nat) : PromiseState :=
  if ev.1 = w.name ∧ w.registeredAt < ev.2 then resolveP s else s

/-- Modelled from the spec: outcome of one `wait()` call against the
chronological list of broadcast events (name, emission time). Events up
to the waiter deadline are delivered first, then the waiter timer rejects
with the timeout message, then any later events are delivered to the
already-settled promise. Each waiter owns its promise and timer, so
concurrent waiters are independent by construction. -/
def waitOutcome (w : Waiter) (events : List (String × Nat)) : PromiseState :=
  let deadline := w.registeredAt + w.timeoutMs
  let onTime := events.filter (fun ev => ev.2 ≤ deadline)
  let late := events.filter (fun ev => deadline < ev.2)
  late.foldl (waitStep w)
    (rejectP (waitTimeoutMessage w.name w.timeoutMs) (onTime.foldl (waitStep w) .pending))

/-- A parse failure (the payload string makes `jsonParse` throw) yields
`null`, exactly like `_parseMessage` returning null from its catch block. -/
theorem parseMessage_of_error (jsonParse : String → Except JsValue JsValue)
    (m : Message) (s : String) (e : JsValue)
    (hc : m.content = some s) (hp : jsonParse s = .error e) :
    parseMessage jsonParse m = .vNull := by
  simp [parseMessage, hc, hp]

/-- When the parsed content is falsy the consumer acks at once, without
touching validator or handler. -/
theorem consume_of_falsy (jsonParse : String → Except JsValue JsValue)
    (validate : JsValue → ExecResult) (handle : JsValue → HandlerExec)
    (name : String) (taskTimeout : Nat) (m : Message)
    (hf : truthy (parseMessage jsonParse m) = false) :
    consumeMessageE jsonParse validate handle name taskTimeout m =
      .ok ⟨[.ack], false, false, none⟩ := by
  simp [consumeMessageE, hf]

/-- When the content is truthy and the validation result is not an Error,
the consumer reaches the handler stage and the decision is dictated by
`_handleMessage`. -/
theorem consume_reaches_handler (jsonParse : String → Except JsValue JsValue)
    (validate : JsValue → ExecResult) (handle : JsValue → HandlerExec)
    (name : String) (taskTimeout : Nat) (m : Message)
    (hparse : truthy (parseMessage jsonParse m) = true)
    (hval : isError (validateMessage validate (parseMessage jsonParse m)) = false) :
    consumeMessageE jsonParse validate handle name taskTimeout m =
      (if handleMessage (handle (handlerArgOf validate (parseMessage jsonParse m)))
            name taskTimeout m.redelivered then
        .ok ⟨[.ack], true, true, some (handlerArgOf validate (parseMessage jsonParse m))⟩
      else .ok ⟨[.nack], true, true, some (handlerArgOf validate (parseMessage jsonParse m))⟩) := by
  simp [consumeMessageE, hparse, hval]

/-- Every branch of the consumer performs exactly one channel call. -/
theorem consume_calls_length (jsonParse : String → Except JsValue JsValue)
    (validate : JsValue → ExecResult) (handle : JsValue → HandlerExec)
    (name : String) (taskTimeout : Nat) (m : Message) (tr : ConsumeTrace)
    (h : consumeMessageE jsonParse validate handle name taskTimeout m = .ok tr) :
    tr.channelCalls.length = 1 := by
  simp only [consumeMessageE] at h
  split at h
  · cases h; rfl
  split at h
  · cases h; rfl
  split at h
  · cases h; rfl
  · cases h; rfl

/-- A handler that settles successfully within the timeout fulfills the
guarded promise, and nothing else does. -/
theorem promisify_fulfilled_iff (h : HandlerExec) (name : String) (timeout : Nat) :
    promisifyWithTimeout h name timeout = .fulfilled ↔
      ∃ t, h = .settles t (.ok ()) ∧ t ≤ timeout := by
  cases h with
  | hangs => simp [promisifyWithTimeout, rejectP]
  | settles t result =>
    by_cases ht : t ≤ timeout
    · cases result with
      | ok u =>
        cases u
        simp [promisifyWithTimeout, ht, settleEvent, resolveP, rejectP]
      | error e =>
        simp [promisifyWithTimeout, ht, settleEvent, resolveP, rejectP]
    · cases result with
      | ok u =>
        cases u
        simp only [promisifyWithTimeout, if_neg ht, settleEvent, resolveP, rejectP]
        constructor
        · intro hc; cases hc
        · rintro ⟨t2, ht2, hle⟩
          cases ht2
          exact absurd hle ht
      | error e =>
        simp [promisifyWithTimeout, if_neg ht, settleEvent, resolveP, rejectP]

/-- A fulfilled guard makes `_handleMessage` report success. -/
theorem handleMessage_of_fulfilled (h : HandlerExec) (name : String) (timeout : Nat)
    (redelivered : Bool)
    (hf : promisifyWithTimeout h name timeout = .fulfilled) :
    handleMessage h name timeout redelivered = true := by
  simp [handleMessage, hf]

/-- A rejected guard sends `_handleMessage` into its catch branch, whose
verdict is exactly the redelivered flag: nack (false) on a first attempt,
ack (true) on a redelivery. -/
theorem handleMessage_of_not_fulfilled (h : HandlerExec) (name : String) (timeout : Nat)
    (redelivered : Bool)
    (hf : promisifyWithTimeout h name timeout ≠ .fulfilled) :
    handleMessage h name timeout redelivered = redelivered := by
  cases hp : promisifyWithTimeout h name timeout with
  | pending => cases redelivered <;> simp [handleMessage, hp]
  | fulfilled => exact absurd hp hf
  | rejectedWith e => cases redelivered <;> simp [handleMessage, hp]

/-- C6: for every delivered message the consumer closure never raises to
its caller: parse errors, validator errors and handler failures (timeouts
included) are all caught inside the pipeline, and the run returns exactly
one ack-or-nack decision instead of an exception. -/
theorem consumer_never_throws (jsonParse : String → Except JsValue JsValue)
    (validate : JsValue → ExecResult) (handle : JsValue → HandlerExec)
    (name : String) (taskTimeout : Nat) (m : Message) :
    (consumeMessageE jsonParse validate handle name taskTimeout m).isOk = true ∧
      ∀ tr, consumeMessageE jsonParse validate handle name taskTimeout m = .ok tr →
        tr.channelCalls.length = 1 := by
  constructor
  · simp only [consumeMessageE]
    split
    · rfl
    split
    · rfl
    split
    · rfl
    · rfl
  · intro tr h
    exact consume_calls_length jsonParse validate handle name taskTimeout m tr h

theorem consumer_never_throws_witness :
    (consumeMessageE jsonParseSample (fun v => .ret v) (fun _ => .settles 0 (.ok ()))
        "w" 30000 ⟨some "{}", false⟩).isOk = true ∧
      (⟨[.ack], true, true, some (.vObj 0)⟩ : ConsumeTrace).channelCalls.length = 1 :=
  ⟨(consumer_never_throws jsonParseSample (fun v => .ret v) (fun _ => .settles 0 (.ok ()))
      "w" 30000 ⟨some "{}", false⟩).1,
    (consumer_never_throws jsonParseSample (fun v => .ret v) (fun _ => .settles 0 (.ok ()))
      "w" 30000 ⟨some "{}", false⟩).2 ⟨[.ack], true, true, some (.vObj 0)⟩ (by decide)⟩

/-- C2: a delivered message whose payload does not parse as valid JSON is
acked (never nacked), and neither the validator nor the handler is ever
invoked for it. -/
theorem invalid_json_acked_without_handler (jsonParse : String → Except JsValue JsValue)
    (validate : JsValue → ExecResult) (handle : JsValue → HandlerExec)
    (name : String) (taskTimeout : Nat) (m : Message) (s : String) (e : JsValue)
    (hc : m.content = some s) (hp : jsonParse s = .error e) :
    consumeMessageE jsonParse validate handle name taskTimeout m =
      .ok ⟨[.ack], false, false, none⟩ := by
  apply consume_of_falsy
  rw [parseMessage_of_error jsonParse m s e hc hp]
  rfl

theorem invalid_json_acked_without_handler_witness :
    jsonParseSample "test" = .error (.vErr "SyntaxError: Unexpected token") ∧
      consumeMessageE jsonParseSample (fun v => .ret v) (fun _ => .settles 0 (.ok ()))
          "w" 30000 ⟨some "test", false⟩ =
        .ok ⟨[.ack], false, false, none⟩ :=
  ⟨by decide,
    invalid_json_acked_without_handler jsonParseSample (fun v => .ret v)
      (fun _ => .settles 0 (.ok ())) "w" 30000 ⟨some "test", false⟩ "test"
      (.vErr "SyntaxError: Unexpected token") rfl (by decide)⟩

/-- C1: for a delivery that reaches the handler stage (truthy parsed
content, validation result not an Error), the guard fulfills exactly when
the handler settles successfully within the task timeout; on success the
message is acked, on failure (raised error or timeout) it is nacked when
the redelivered flag is false and acked when it is true; and exactly one
ack-or-nack decision is made per delivery. -/
theorem handler_outcome_retry_policy (jsonParse : String → Except JsValue JsValue)
    (validate : JsValue → ExecResult) (handle : JsValue → HandlerExec)
    (name : String) (taskTimeout : Nat) (m : Message)
    (hparse : truthy (parseMessage jsonParse m) = true)
    (hval : isError (validateMessage validate (parseMessage jsonParse m)) = false) :
    (promisifyWithTimeout (handle (handlerArgOf validate (parseMessage jsonParse m)))
        name taskTimeout = .fulfilled ↔
      ∃ t, handle (handlerArgOf validate (parseMessage jsonParse m)) =
          .settles t (.ok ()) ∧ t ≤ taskTimeout) ∧
    (promisifyWithTimeout (handle (handlerArgOf validate (parseMessage jsonParse m)))
        name taskTimeout = .fulfilled →
      consumeMessageE jsonParse validate handle name taskTimeout m =
        .ok ⟨[.ack], true, true, some (handlerArgOf validate (parseMessage jsonParse m))⟩) ∧
    (promisifyWithTimeout (handle (handlerArgOf validate (parseMessage jsonParse m)))
        name taskTimeout ≠ .fulfilled → m.redelivered = false →
      consumeMessageE jsonParse validate handle name taskTimeout m =
        .ok ⟨[.nack], true, true, some (handlerArgOf validate (parseMessage jsonParse m))⟩) ∧
    (promisifyWithTimeout (handle (handlerArgOf validate (parseMessage jsonParse m)))
        name taskTimeout ≠ .fulfilled → m.redelivered = true →
      consumeMessageE jsonParse validate handle name taskTimeout m =
        .ok ⟨[.ack], true, true, some (handlerArgOf validate (parseMessage jsonParse m))⟩) ∧
    (∀ tr, consumeMessageE jsonParse validate handle name taskTimeout m = .ok tr →
      tr.channelCalls.length = 1) := by
  have hbase := consume_reaches_handler jsonParse validate handle name taskTimeout m hparse hval
  refine ⟨promisify_fulfilled_iff _ name taskTimeout, ?_, ?_, ?_, ?_⟩
  · intro hfull
    rw [hbase, handleMessage_of_fulfilled _ name taskTimeout m.redelivered hfull]
    rfl
  · intro hfail hred
    rw [hbase, handleMessage_of_not_fulfilled _ name taskTimeout m.redelivered hfail, hred]
    rfl
  · intro hfail hred
    rw [hbase, handleMessage_of_not_fulfilled _ name taskTimeout m.redelivered hfail, hred]
    rfl
  · intro tr h
    exact consume_calls_length jsonParse validate handle name taskTimeout m tr h

theorem handler_outcome_retry_policy_witness :
    consumeMessageE jsonParseSample (fun v => .ret v) (fun _ => .settles 0 (.ok ()))
        "w" 30000 ⟨some "{}", true⟩ =
      .ok ⟨[.ack], true, true, some (.vObj 0)⟩ ∧
    consumeMessageE jsonParseSample (fun v => .ret v) (fun _ => .settles 0 (.error "boom"))
        "w" 30000 ⟨some "{}", false⟩ =
      .ok ⟨[.nack], true, true, some (.vObj 0)⟩ :=
  ⟨(handler_outcome_retry_policy jsonParseSample (fun v => .ret v)
      (fun _ => .settles 0 (.ok ())) "w" 30000 ⟨some "{}", true⟩
      (by decide) (by decide)).2.1 (by decide),
    (handler_outcome_retry_policy jsonParseSample (fun v => .ret v)
      (fun _ => .settles 0 (.error "boom")) "w" 30000 ⟨some "{}", false⟩
      (by decide) (by decide)).2.2.1 (by decide) rfl⟩

/-- C9: a payload that is valid JSON for a falsy value (null, false, 0 or
the empty string) is acked with neither validator nor handler invoked,
and the consumer run is literally the same as for an unparseable payload. -/
theorem falsy_json_acked_like_parse_failure (jsonParse : String → Except JsValue JsValue)
    (validate : JsValue → ExecResult) (handle : JsValue → HandlerExec)
    (name : String) (taskTimeout : Nat) (m : Message) (s : String) (v : JsValue)
    (hc : m.content = some s) (hp : jsonParse s = .ok v) (hf : truthy v = false) :
    consumeMessageE jsonParse validate handle name taskTimeout m =
      .ok ⟨[.ack], false, false, none⟩ ∧
    ∀ m2 s2 e2, m2.content = some s2 → jsonParse s2 = .error e2 →
      consumeMessageE jsonParse validate handle name taskTimeout m2 =
        consumeMessageE jsonParse validate handle name taskTimeout m := by
  have hpm : parseMessage jsonParse m = v := by simp [parseMessage, hc, hp]
  have h1 : consumeMessageE jsonParse validate handle name taskTimeout m =
      .ok ⟨[.ack], false, false, none⟩ := by
    apply consume_of_falsy
    rw [hpm]
    exact hf
  refine ⟨h1, ?_⟩
  intro m2 s2 e2 hc2 hp2
  rw [h1]
  apply consume_of_falsy
  rw [parseMessage_of_error jsonParse m2 s2 e2 hc2 hp2]
  rfl

theorem falsy_json_acked_like_parse_failure_witness :
    truthy (.vNum 0) = false ∧
      consumeMessageE jsonParseSample (fun v => .ret v) (fun _ => .settles 0 (.ok ()))
          "w" 30000 ⟨some "0", false⟩ =
        .ok ⟨[.ack], false, false, none⟩ :=
  ⟨by decide,
    (falsy_json_acked_like_parse_failure jsonParseSample (fun v => .ret v)
      (fun _ => .settles 0 (.ok ())) "w" 30000 ⟨some "0", false⟩ "0" (.vNum 0)
      rfl (by decide) (by decide)).1⟩

/-- C3 counterexample: a validator that signals failure by throwing a
non-Error value (here the string "oops") does not lead to an
ack-without-handler: the thrown value fails the lodash isError test, is
truthy, and is passed to the handler, whose failure on this first
delivery even makes the consumer nack the message. -/
theorem validator_nonerror_throw_reaches_handler :
    consumeMessageE jsonParseSample (fun _ => .thrown (.vStr "oops"))
        (fun _ => .settles 0 (.error "boom")) "w" 30000 ⟨some "1", false⟩ =
      .ok ⟨[.nack], true, true, some (.vStr "oops")⟩ := by
  decide

/-- C3 amended: for a delivery whose payload parses to truthy content and
whose validator throws an Error object, the consumer acks the message and
the handler is never invoked. -/
theorem validator_error_throw_acked (jsonParse : String → Except JsValue JsValue)
    (validate : JsValue → ExecResult) (handle : JsValue → HandlerExec)
    (name : String) (taskTimeout : Nat) (m : Message) (e : JsValue)
    (hparse : truthy (parseMessage jsonParse m) = true)
    (hthrow : validate (parseMessage jsonParse m) = .thrown e)
    (herr : isError e = true) :
    consumeMessageE jsonParse validate handle name taskTimeout m =
      .ok ⟨[.ack], true, false, none⟩ := by
  have hv : validateMessage validate (parseMessage jsonParse m) = e := by
    simp [validateMessage, hthrow]
  simp [consumeMessageE, hparse, hv, herr]

theorem validator_error_throw_acked_witness :
    isError (.vErr "schema mismatch") = true ∧
      consumeMessageE jsonParseSample (fun _ => .thrown (.vErr "schema mismatch"))
          (fun _ => .settles 0 (.ok ())) "w" 30000 ⟨some "1", false⟩ =
        .ok ⟨[.ack], true, false, none⟩ :=
  ⟨by decide,
    validator_error_throw_acked jsonParseSample (fun _ => .thrown (.vErr "schema mismatch"))
      (fun _ => .settles 0 (.ok ())) "w" 30000 ⟨some "1", false⟩
      (.vErr "schema mismatch") (by decide) rfl (by decide)⟩

/-- A falsy JavaScript value is never an Error object. -/
theorem falsy_not_error (v : JsValue) (hf : truthy v = false) : isError v = false := by
  cases v <;> simp_all [truthy, isError]

/-- A delivery that reaches the handler stage records the handler
invocation and its argument in the trace, whatever the handler outcome. -/
theorem consumeResult_reaches_handler (jsonParse : String → Except JsValue JsValue)
    (validate : JsValue → ExecResult) (handle : JsValue → HandlerExec)
    (name : String) (taskTimeout : Nat) (m : Message)
    (hparse : truthy (parseMessage jsonParse m) = true)
    (hval : isError (validateMessage validate (parseMessage jsonParse m)) = false) :
    (consumeResult jsonParse validate handle name taskTimeout m).handlerCalled = true ∧
      (consumeResult jsonParse validate handle name taskTimeout m).handlerArg =
        some (handlerArgOf validate (parseMessage jsonParse m)) := by
  have hbase := consume_reaches_handler jsonParse validate handle name taskTimeout m hparse hval
  unfold consumeResult
  rw [hbase]
  cases hm : handleMessage (handle (handlerArgOf validate (parseMessage jsonParse m)))
      name taskTimeout m.redelivered <;> simp [hm]

/-- C10: once the payload parses to truthy content, a validator returning
a truthy non-Error value substitutes that value as the handler argument, a
validator returning a falsy value leaves the original content as the
handler argument, and a validator returning an Error object causes an ack
with the handler never invoked. -/
theorem validator_return_value_semantics (jsonParse : String → Except JsValue JsValue)
    (validate : JsValue → ExecResult) (handle : JsValue → HandlerExec)
    (name : String) (taskTimeout : Nat) (m : Message)
    (hparse : truthy (parseMessage jsonParse m) = true) :
    (∀ r, validate (parseMessage jsonParse m) = .ret r → truthy r = true →
      isError r = false →
      (consumeResult jsonParse validate handle name taskTimeout m).handlerCalled = true ∧
        (consumeResult jsonParse validate handle name taskTimeout m).handlerArg = some r) ∧
    (∀ r, validate (parseMessage jsonParse m) = .ret r → truthy r = false →
      (consumeResult jsonParse validate handle name taskTimeout m).handlerCalled = true ∧
        (consumeResult jsonParse validate handle name taskTimeout m).handlerArg =
          some (parseMessage jsonParse m)) ∧
    (∀ r, validate (parseMessage jsonParse m) = .ret r → isError r = true →
      consumeMessageE jsonParse validate handle name taskTimeout m =
        .ok ⟨[.ack], true, false, none⟩) := by
  refine ⟨?_, ?_, ?_⟩
  · intro r hret htr herr
    have hv : validateMessage validate (parseMessage jsonParse m) = r := by
      simp [validateMessage, hret]
    have harg : handlerArgOf validate (parseMessage jsonParse m) = r := by
      simp [handlerArgOf, hv, htr]
    have hbase := consumeResult_reaches_handler jsonParse validate handle name taskTimeout m
      hparse (by rw [hv]; exact herr)
    rw [harg] at hbase
    exact hbase
  · intro r hret htr
    have hv : validateMessage validate (parseMessage jsonParse m) = r := by
      simp [validateMessage, hret]
    have harg : handlerArgOf validate (parseMessage jsonParse m) =
        parseMessage jsonParse m := by
      simp [handlerArgOf, hv, htr]
    have hbase := consumeResult_reaches_handler jsonParse validate handle name taskTimeout m
      hparse (by rw [hv]; exact falsy_not_error r htr)
    rw [harg] at hbase
    exact hbase
  · intro r hret herr
    have hv : validateMessage validate (parseMessage jsonParse m) = r := by
      simp [validateMessage, hret]
    simp [consumeMessageE, hparse, hv, herr]

theorem validator_return_value_semantics_witness :
    (consumeResult jsonParseSample (fun _ => .ret (.vStr "tx"))
        (fun _ => .settles 0 (.ok ())) "w" 30000 ⟨some "{}", false⟩).handlerArg =
      some (.vStr "tx") ∧
    (consumeResult jsonParseSample (fun _ => .ret .vNull)
        (fun _ => .settles 0 (.ok ())) "w" 30000 ⟨some "{}", false⟩).handlerArg =
      some (.vObj 0) ∧
    consumeMessageE jsonParseSample (fun _ => .ret (.vErr "bad shape"))
        (fun _ => .settles 0 (.ok ())) "w" 30000 ⟨some "{}", false⟩ =
      .ok ⟨[.ack], true, false, none⟩ :=
  ⟨((validator_return_value_semantics jsonParseSample (fun _ => .ret (.vStr "tx"))
      (fun _ => .settles 0 (.ok ())) "w" 30000 ⟨some "{}", false⟩
      (by decide)).1 (.vStr "tx") rfl (by decide) (by decide)).2,
    ((validator_return_value_semantics jsonParseSample (fun _ => .ret .vNull)
      (fun _ => .settles 0 (.ok ())) "w" 30000 ⟨some "{}", false⟩
      (by decide)).2.1 .vNull rfl (by decide)).2,
    (validator_return_value_semantics jsonParseSample (fun _ => .ret (.vErr "bad shape"))
      (fun _ => .settles 0 (.ok ())) "w" 30000 ⟨some "{}", false⟩
      (by decide)).2.2 (.vErr "bad shape") rfl (by decide)⟩

/-- C4: a handler that has not settled within the task timeout leaves the
guarded promise rejected with the timeout error (a hanging handler too);
the outcome is the one decided by the timer alone, and the late settlement
arriving afterwards is a no-op on the settled promise; and the pipeline
takes the same retry decision for a timeout as for a handler that raises,
for either value of the redelivered flag. -/
theorem timeout_guard_rejects_late_handler (name : String) (taskTimeout t : Nat)
    (result : Except String Unit) (redelivered : Bool) (e : String)
    (hlate : taskTimeout < t) :
    promisifyWithTimeout (.settles t result) name taskTimeout =
      .rejectedWith (timeoutError name) ∧
    promisifyWithTimeout .hangs name taskTimeout = .rejectedWith (timeoutError name) ∧
    promisifyWithTimeout (.settles t result) name taskTimeout =
      rejectP (timeoutError name) .pending ∧
    settleEvent result (.rejectedWith (timeoutError name)) =
      .rejectedWith (timeoutError name) ∧
    handleMessage (.settles t result) name taskTimeout redelivered =
      handleMessage (.settles 0 (.error e)) name taskTimeout redelivered := by
  have hnle : ¬ t ≤ taskTimeout := Nat.not_le.mpr hlate
  have hsettled : settleEvent result (.rejectedWith (timeoutError name)) =
      .rejectedWith (timeoutError name) := by
    cases result <;> simp [settleEvent, resolveP, rejectP]
  have h1 : promisifyWithTimeout (.settles t result) name taskTimeout =
      .rejectedWith (timeoutError name) := by
    simp only [promisifyWithTimeout, if_neg hnle, rejectP]
    exact hsettled
  have hrefused : promisifyWithTimeout (.settles 0 (.error e)) name taskTimeout =
      .rejectedWith e := by
    simp [promisifyWithTimeout, settleEvent, resolveP, rejectP]
  refine ⟨h1, rfl, ?_, hsettled, ?_⟩
  · rw [h1]; rfl
  · rw [handleMessage_of_not_fulfilled _ name taskTimeout redelivered (by rw [h1]; intro h; cases h),
      handleMessage_of_not_fulfilled _ name taskTimeout redelivered (by rw [hrefused]; intro h; cases h)]

theorem timeout_guard_rejects_late_handler_witness :
    5 < 10 ∧
      promisifyWithTimeout (.settles 10 (.ok ())) "w" 5 =
        .rejectedWith (timeoutError "w") :=
  ⟨by decide, (timeout_guard_rejects_late_handler "w" 5 10 (.ok ()) false "boom"
    (by decide)).1⟩

/-- C7: `_close` closes the channel (when one is open) before closing the
connection; with forceExit true it additionally schedules process exit
after the configured processExitTimeout as its last action; with forceExit
false no process termination is ever scheduled. -/
theorem close_shutdown_order (s : CloseState) (processExitTimeout : Nat) (f : Bool) :
    (s.channelOpen = true → s.connectionOpen = true →
      closeWorker s processExitTimeout f =
        [.closeChannel, .closeConnection f] ++
          (if f then [.scheduleExit processExitTimeout] else [])) ∧
    (CloseAction.scheduleExit processExitTimeout ∈ closeWorker s processExitTimeout true) ∧
    (∀ d, CloseAction.scheduleExit d ∉ closeWorker s processExitTimeout false) := by
  obtain ⟨ch, co⟩ := s
  refine ⟨?_, ?_, ?_⟩
  · intro hch hco
    cases hch; cases hco
    cases f <;> simp [closeWorker]
  · cases ch <;> cases co <;> simp [closeWorker]
  · intro d
    cases ch <;> cases co <;> simp [closeWorker]

theorem close_shutdown_order_witness :
    closeWorker ⟨true, true⟩ 3000 false = [.closeChannel, .closeConnection false] ∧
      (∀ d, CloseAction.scheduleExit d ∉ closeWorker ⟨true, true⟩ 3000 false) := by
  have h := close_shutdown_order ⟨true, true⟩ 3000 false
  exact ⟨by simpa using h.1 rfl rfl, h.2.2⟩

/-- C8 counterexample: the spec-listed option closeOnSignals is not a key
of the Joi options schema, so the options validator rejects it as an
unknown key instead of accepting it. -/
theorem options_closeOnSignals_rejected :
    applyOptions [("closeOnSignals", .vBool true)] =
      .error ("closeOnSignals is not allowed") := by
  rfl

/-- C8 amended: omitting the options yields the defaults heartbeat 10,
taskTimeout 30000, processExitTimeout 3000 and channelPrefetch 100; the
four keys the schema declares are accepted; and the spec-only options
closeOnSignals and channelCloseTimeout are rejected as unknown keys. -/
theorem options_defaults_and_known_keys :
    applyOptions [] = .ok ⟨10, 30000, 3000, 100⟩ ∧
    applyOptions [("heartbeat", .vNum 5), ("taskTimeout", .vNum 1000),
        ("processExitTimeout", .vNum 2000), ("channelPrefetch", .vNum 50)] =
      .ok ⟨5, 1000, 2000, 50⟩ ∧
    applyOptions [("closeOnSignals", .vBool true)] =
      .error ("closeOnSignals is not allowed") ∧
    applyOptions [("channelCloseTimeout", .vNum 500)] =
      .error ("channelCloseTimeout is not allowed") := by
  refine ⟨rfl, rfl, rfl, rfl⟩

/-- Event delivery is a no-op on a promise that is already settled. -/
theorem waitStep_of_settled (w : Waiter) (s : PromiseState) (ev : String × Nat)
    (hs : s ≠ .pending) : waitStep w s ev = s := by
  unfold waitStep
  split
  · cases s with
    | pending => exact absurd rfl hs
    | fulfilled => rfl
    | rejectedWith e => rfl
  · rfl

/-- Delivering any sequence of events to a settled promise leaves it as it is. -/
theorem foldl_waitStep_of_settled (w : Waiter) (evs : List (String × Nat))
    (s : PromiseState) (hs : s ≠ .pending) : evs.foldl (waitStep w) s = s := by
  induction evs with
  | nil => rfl
  | cons head tail ih =>
    rw [List.foldl_cons, waitStep_of_settled w s head hs]
    exact ih

/-- A pending waiter that receives a matching event emitted strictly after
its registration ends up fulfilled. -/
theorem foldl_waitStep_fulfilled (w : Waiter) :
    ∀ (evs : List (String × Nat)) (ev : String × Nat), ev ∈ evs → ev.1 = w.name →
      w.registeredAt < ev.2 → evs.foldl (waitStep w) .pending = .fulfilled := by
  intro evs
  induction evs with
  | nil => intro ev h; cases h
  | cons head tail ih =>
    intro ev hmem hname hreg
    rw [List.foldl_cons]
    rcases List.mem_cons.mp hmem with heq | hmem2
    · subst heq
      rw [show waitStep w .pending ev = .fulfilled by
        simp [waitStep, hname, hreg, resolveP]]
      exact foldl_waitStep_of_settled w tail .fulfilled (by intro h; cases h)
    · by_cases hc : head.1 = w.name ∧ w.registeredAt < head.2
      · rw [show waitStep w .pending head = .fulfilled by simp [waitStep, hc, resolveP]]
        exact foldl_waitStep_of_settled w tail .fulfilled (by intro h; cases h)
      · rw [show waitStep w .pending head = .pending by simp [waitStep, hc]]
        exact ih ev hmem2 hname hreg

/-- A waiter that receives no matching post-registration event stays pending. -/
theorem foldl_waitStep_no_match (w : Waiter) :
    ∀ evs : List (String × Nat),
      (∀ ev ∈ evs, ¬(ev.1 = w.name ∧ w.registeredAt < ev.2)) →
      evs.foldl (waitStep w) .pending = .pending := by
  intro evs
  induction evs with
  | nil => intro _; rfl
  | cons head tail ih =>
    intro h
    rw [List.foldl_cons,
      show waitStep w .pending head = .pending by
        simp [waitStep, h head (List.mem_cons_self head tail)]]
    exact ih (fun ev hm => h ev (List.mem_cons_of_mem head hm))

/-- C5 (modelled from the spec): a `wait(eventName, timeoutMs)` call has
timeoutMs defaulting to 1000; it resolves when a matching event is emitted
strictly after its registration and no later than its deadline; when no
matching event falls in that window it rejects with the error
"event <name> didn't occur after <timeoutMs>ms", and matching events
emitted after the deadline never resolve it retroactively. Waiters carry
no shared state, so concurrent waiters are satisfied or time out
independently, each by its own instance of this statement. -/
theorem wait_resolves_or_times_out (nm : String) (t0 tmo : Nat)
    (events : List (String × Nat)) :
    ({ name := nm, registeredAt := t0 } : Waiter).timeoutMs = 1000 ∧
    ((∃ ev ∈ events, ev.1 = nm ∧ t0 < ev.2 ∧ ev.2 ≤ t0 + tmo) →
      waitOutcome ⟨nm, t0, tmo⟩ events = .fulfilled) ∧
    ((∀ ev ∈ events, ¬(ev.1 = nm ∧ t0 < ev.2 ∧ ev.2 ≤ t0 + tmo)) →
      waitOutcome ⟨nm, t0, tmo⟩ events = .rejectedWith (waitTimeoutMessage nm tmo)) := by
  refine ⟨rfl, ?_, ?_⟩
  · rintro ⟨ev, hmem, hname, hreg, hdead⟩
    show (events.filter (fun e => t0 + tmo < e.2)).foldl (waitStep ⟨nm, t0, tmo⟩)
        (rejectP (waitTimeoutMessage nm tmo)
          ((events.filter (fun e => e.2 ≤ t0 + tmo)).foldl
            (waitStep ⟨nm, t0, tmo⟩) .pending)) =
      .fulfilled
    have hmemf : ev ∈ events.filter (fun e => e.2 ≤ t0 + tmo) := by
      apply List.mem_filter.mpr
      exact ⟨hmem, by simpa using hdead⟩
    rw [foldl_waitStep_fulfilled ⟨nm, t0, tmo⟩ _ ev hmemf hname hreg]
    rw [show rejectP (waitTimeoutMessage nm tmo) .fulfilled = .fulfilled from rfl]
    exact foldl_waitStep_of_settled _ _ _ (by intro h; cases h)
  · intro h
    show (events.filter (fun e => t0 + tmo < e.2)).foldl (waitStep ⟨nm, t0, tmo⟩)
        (rejectP (waitTimeoutMessage nm tmo)
          ((events.filter (fun e => e.2 ≤ t0 + tmo)).foldl
            (waitStep ⟨nm, t0, tmo⟩) .pending)) =
      .rejectedWith (waitTimeoutMessage nm tmo)
    have h1 : (events.filter (fun e => e.2 ≤ t0 + tmo)).foldl
        (waitStep ⟨nm, t0, tmo⟩) .pending = .pending := by
      apply foldl_waitStep_no_match
      intro ev hm
      have hmem := (List.mem_filter.mp hm).1
      have hle : ev.2 ≤ t0 + tmo := by simpa using (List.mem_filter.mp hm).2
      rintro ⟨hn, hr⟩
      exact h ev hmem ⟨hn, hr, hle⟩
    rw [h1]
    rw [show rejectP (waitTimeoutMessage nm tmo) .pending =
      .rejectedWith (waitTimeoutMessage nm tmo) from rfl]
    exact foldl_waitStep_of_settled _ _ _ (by intro hc; cases hc)

theorem wait_resolves_or_times_out_witness :
    waitOutcome ⟨"task.completed", 0, 10⟩ [("task.completed", 5)] = .fulfilled ∧
      waitOutcome ⟨"task.completed", 0, 10⟩ [("task.completed", 20)] =
        .rejectedWith (waitTimeoutMessage "task.completed" 10) :=
  ⟨(wait_resolves_or_times_out "task.completed" 0 10
      [("task.completed", 5)]).2.1 (by decide),
    (wait_resolves_or_times_out "task.completed" 0 10
      [("task.completed", 20)]).2.2 (by decide)⟩

end ChprWorker
